import Mathlib

/-!
Shallow embedding of the aurora-engine eth-connector core
(`src/connector.rs` and `engine-types/src/types_new/address.rs`).

Conventions of the embedding:
* machine bytes are `Nat` values, byte strings are `List Nat`;
* Rust `String`/`str` values are embedded as `List Char`;
* a Rust panic (a failed `assert!`/`unwrap`/`expect`) aborts the whole
  invocation with no persisted state change; it is embedded as an
  `Except`-error (or `Option.none`) return: an error value carries no
  state, which models the host's rollback of every storage write and
  promise created by the aborted invocation;
* u128 balances are embedded as `Nat` (the spec's abstract ledger design
  has no wrap-around).
-/

deriving instance DecidableEq for Except

namespace AuroraConnector

/-- Embed a Lean string literal as the character list that models a Rust string. -/
def str (s : String) : List Char := s.data

/-! ## Address codec (`engine-types/src/types_new/address.rs`) -/

/-- `error::AddressLengthError`: the strict-length address decode error. -/
inductive AddressLengthError
  | mk
  deriving DecidableEq

/-- The display text of `AddressLengthError` (its `AsRef<[u8]>` payload),
carried by the `io::Error` that `BorshDeserialize::deserialize` returns. -/
def ERR_WRONG_ADDRESS_LENGTH : List Char := str "ERR_WRONG_ADDRESS_LENGTH"

/-- `Address(H160)`: exactly 20 bytes, immutable once constructed.  The
inner `H160` fixed array is embedded as a byte list of length 20. -/
abbrev Address := { l : List Nat // l.length = 20 }

/-- `BorshSerialize for Address`: writes the 20 raw bytes of the inner `H160`. -/
def Address.serialize (a : Address) : List Nat := a.val

/-- `BorshDeserialize::deserialize for Address`: rejects any buffer whose
length is not exactly 20, otherwise wraps the bytes. -/
def Address.deserialize (buf : List Nat) : Except (List Char) Address :=
  if h : buf.length ≠ 20 then
    Except.error ERR_WRONG_ADDRESS_LENGTH
  else
    Except.ok ⟨buf, not_not.mp h⟩

/-- `BorshDeserialize::try_from_slice for Address`: runs `deserialize` on the
whole slice. -/
def Address.try_from_slice (v : List Nat) : Except (List Char) Address :=
  Address.deserialize v

/-- `TryFrom<&[u8]> for Address`: `try_from_slice`, with the error mapped to
`AddressLengthError`. -/
def Address.try_from (raw_addr : List Nat) : Except AddressLengthError Address :=
  match Address.try_from_slice raw_addr with
  | Except.ok a => Except.ok a
  | Except.error _ => Except.error AddressLengthError.mk

/-- `H160::from_slice` (external `primitive-types` crate, called by
`Address::from_slice`): asserts that the slice length is exactly 20 and
panics otherwise.  The panic is embedded as `none`. -/
def H160.from_slice (raw : List Nat) : Option Address :=
  if h : raw.length = 20 then some ⟨raw, h⟩ else none

/-- `Address::from_slice`: forwards to `H160::from_slice` with no length
guard of its own, so a wrong-length slice panics (`none`) instead of
returning an error. -/
def Address.from_slice (raw_addr : List Nat) : Option Address :=
  H160.from_slice raw_addr

/-! ## Basic connector types (`src/connector.rs` and its `crate::types`) -/

/-- `AccountId` (a NEAR account name, a Rust `String`). -/
abbrev AccountId := List Char

/-- `EthAddress` (`[u8; 20]` in `crate::types`), embedded as a byte list. -/
abbrev EthAddress := List Nat

/-- `Balance` (`u128`), embedded as `Nat`. -/
abbrev Balance := Nat

/-- The panic/abort conditions of the connector, one constructor per
distinct `assert!`/`expect`/`panic_utf8` message in `src/connector.rs`
(and in the spec-modelled collaborators it calls). -/
inductive ConnectorError
  | failedParse
  | wrongEventAddress
  | notEnoughBalanceForFee
  | relayerNotSet
  | privateCallRequired
  | promiseCountMismatch
  | promiseIndex
  | verifyProof
  | proofExists
  | notEnoughBalance
  | malformedMessage
  | invalidEthAddress
  | wrongEip712Msg
  deriving DecidableEq

/-! ## Hex decoding and `validate_eth_address` -/

/-- Value of one hexadecimal digit character, `none` for a non-hex character. -/
def hexDigit (c : Char) : Option Nat :=
  if '0' ≤ c ∧ c ≤ '9' then some (c.toNat - '0'.toNat)
  else if 'a' ≤ c ∧ c ≤ 'f' then some (c.toNat - 'a'.toNat + 10)
  else if 'A' ≤ c ∧ c ≤ 'F' then some (c.toNat - 'A'.toNat + 10)
  else none

/-- `hex::decode` on a character list: pairs of hex digits to bytes;
fails on an odd length or a non-hex character. -/
def hexBytes : List Char → Option (List Nat)
  | [] => some []
  | [_] => none
  | c1 :: c2 :: rest =>
    match hexDigit c1, hexDigit c2, hexBytes rest with
    | some hi, some lo, some tail => some ((hi * 16 + lo) :: tail)
    | _, _, _ => none

/-- Modelled from the spec: `validate_eth_address` (`crate::prover`, not in
`src/`) — §4.1 Address Codec `from_hex`: hex-decode the string and require
exactly 20 bytes; any other input aborts (`DecodeError`). -/
def validate_eth_address (address : List Char) : Except ConnectorError EthAddress :=
  match hexBytes address with
  | some data => if data.length = 20 then Except.ok data else Except.error ConnectorError.invalidEthAddress
  | none => Except.error ConnectorError.invalidEthAddress

/-! ## Recipient resolver (`parse_event_message`) -/

/-- `TokenMessageData`: the tagged recipient destination. -/
inductive TokenMessageData
  | near (accountId : AccountId)
  | eth (contract : List Char) (address : EthAddress)
  deriving DecidableEq

/-- Rust `str::split(':')` on a character list: the list of segments
between `':'` occurrences (always at least one segment). -/
def splitColon : List Char → List (List Char)
  | [] => [[]]
  | c :: rest =>
    if c = ':' then
      [] :: splitColon rest
    else
      match splitColon rest with
      | [] => [[c]]
      | h :: t => (c :: h) :: t

/-- `parse_event_message`: split the recipient message on `':'`;
`assert!(data.len() < 3)` (panic embedded as `malformedMessage`); one
segment is a NEAR recipient, otherwise segment 0 is the contract tag and
segment 1 the origin address. -/
def parse_event_message (message : List Char) : Except ConnectorError TokenMessageData :=
  let data := splitColon message
  if data.length < 3 then
    if data.length = 1 then
      Except.ok (TokenMessageData.near (data.getD 0 []))
    else
      match validate_eth_address (data.getD 1 []) with
      | Except.ok address => Except.ok (TokenMessageData.eth (data.getD 0 []) address)
      | Except.error e => Except.error e
  else
    Except.error ConnectorError.malformedMessage

/-! ## Ledger (`crate::fungible_token`, spec-modelled)

`fungible_token.rs` is not under `src/`; the balance store is modelled
from spec §4.2 (Ledger): two balance namespaces — host-identity balances
and origin-address balances — each an association map created-at-zero on
first deposit, plus a running total-supply counter per namespace; a
withdrawal may not burn more than the current balance.  The abstract
design has no overflow wrap-around (`Nat` balances). -/

/-- Association-list lookup (the key-value balance map of the host store). -/
def alist_get [DecidableEq α] : List (α × Nat) → α → Option Nat
  | [], _ => none
  | (k', v) :: t, k => if k' = k then some v else alist_get t k

/-- Association-list update/insert. -/
def alist_set [DecidableEq α] : List (α × Nat) → α → Nat → List (α × Nat)
  | [], k, v => [(k, v)]
  | (k', v') :: t, k, v => if k' = k then (k, v) :: t else (k', v') :: alist_set t k v

/-- Modelled from the spec: `FungibleToken` (`crate::fungible_token`, not in
`src/`) — the dual-namespace balance store of §4.2. -/
structure FungibleToken where
  accounts : List (AccountId × Nat)
  accounts_eth : List (EthAddress × Nat)
  total_supply_near : Nat
  total_supply_eth : Nat
  deriving DecidableEq

/-- Modelled from the spec: `FungibleToken::accounts_get`. -/
def FungibleToken.accounts_get (ft : FungibleToken) (owner_id : AccountId) : Option Nat :=
  alist_get ft.accounts owner_id

/-- Modelled from the spec: `FungibleToken::accounts_insert`. -/
def FungibleToken.accounts_insert (ft : FungibleToken) (owner_id : AccountId) (amount : Nat) :
    FungibleToken :=
  { ft with accounts := alist_set ft.accounts owner_id amount }

/-- Modelled from the spec: `FungibleToken::internal_deposit` — §4.2 mint on
the host namespace: increase the key's balance (entry created at zero if
absent) and the host total-supply counter. -/
def FungibleToken.internal_deposit (ft : FungibleToken) (owner_id : AccountId) (amount : Nat) :
    FungibleToken :=
  { ft with
    accounts := alist_set ft.accounts owner_id ((alist_get ft.accounts owner_id).getD 0 + amount)
    total_supply_near := ft.total_supply_near + amount }

/-- Modelled from the spec: `FungibleToken::internal_withdraw` — §4.2 burn on
the host namespace: fails (`InsufficientBalance`) if `amount` exceeds the
current balance, otherwise decreases balance and host total supply. -/
def FungibleToken.internal_withdraw (ft : FungibleToken) (owner_id : AccountId) (amount : Nat) :
    Except ConnectorError FungibleToken :=
  let balance := (alist_get ft.accounts owner_id).getD 0
  if amount ≤ balance then
    Except.ok
      { ft with
        accounts := alist_set ft.accounts owner_id (balance - amount)
        total_supply_near := ft.total_supply_near - amount }
  else
    Except.error ConnectorError.notEnoughBalance

/-- Modelled from the spec: `FungibleToken::internal_deposit_eth` — §4.2 mint
on the origin-address namespace. -/
def FungibleToken.internal_deposit_eth (ft : FungibleToken) (address : EthAddress) (amount : Nat) :
    FungibleToken :=
  { ft with
    accounts_eth :=
      alist_set ft.accounts_eth address ((alist_get ft.accounts_eth address).getD 0 + amount)
    total_supply_eth := ft.total_supply_eth + amount }

/-- Modelled from the spec: `FungibleToken::internal_withdraw_eth` — §4.2
burn on the origin-address namespace. -/
def FungibleToken.internal_withdraw_eth (ft : FungibleToken) (address : EthAddress) (amount : Nat) :
    Except ConnectorError FungibleToken :=
  let balance := (alist_get ft.accounts_eth address).getD 0
  if amount ≤ balance then
    Except.ok
      { ft with
        accounts_eth := alist_set ft.accounts_eth address (balance - amount)
        total_supply_eth := ft.total_supply_eth - amount }
  else
    Except.error ConnectorError.notEnoughBalance

/-- Modelled from the spec: `FungibleToken::ft_total_supply` — total supply
of NEAR + ETH namespaces. -/
def FungibleToken.ft_total_supply (ft : FungibleToken) : Nat :=
  ft.total_supply_near + ft.total_supply_eth

/-! ## Contract state (`EthConnectorContract` plus its host storage) -/

/-- `EthConnector`: the connector-specific configuration. -/
structure EthConnector where
  prover_account : AccountId
  eth_custodian_address : EthAddress
  deriving DecidableEq

/-- The persisted state an invocation of `EthConnectorContract` operates on:
the configuration, the fungible-token ledger, and the set of used-event
storage keys (each a zero-length marker written under a derived key by
`save_used_event`).  `save_contract` persists `contract` and `ft` under
their fixed keys, which are distinct from every derived used-event key, so
the three parts model the host key-value store without interference. -/
structure ConnectorState where
  contract : EthConnector
  ft : FungibleToken
  used_events : List (List Char)
  deriving DecidableEq

/-- `CONTRACT_NAME_KEY = "EthConnector"`. -/
def CONTRACT_NAME_KEY : List Char := str "EthConnector"

/-- `used_event_key`: `[CONTRACT_NAME_KEY, "used-event", key].join(".")`. -/
def used_event_key (key : List Char) : List Char :=
  CONTRACT_NAME_KEY ++ str ".used-event." ++ key

/-- `check_used_event`: `sdk::storage_has_key` on the derived key. -/
def check_used_event (s : ConnectorState) (key : List Char) : Bool :=
  decide (used_event_key key ∈ s.used_events)

/-- `save_used_event`: writes the zero-length marker under the derived key. -/
def save_used_event (s : ConnectorState) (key : List Char) : ConnectorState :=
  { s with used_events := used_event_key key :: s.used_events }

/-- `record_proof`: `assert!(!check_used_event(key), "ERR_PROOF_EXIST")`
(panic embedded as `proofExists`), then `save_used_event`. -/
def record_proof (s : ConnectorState) (key : List Char) : Except ConnectorError ConnectorState :=
  if check_used_event s key then
    Except.error ConnectorError.proofExists
  else
    Except.ok (save_used_event s key)

/-- `mint_near`: register the account at balance 0 when absent, then
`internal_deposit`. -/
def mint_near (s : ConnectorState) (owner_id : AccountId) (amount : Balance) : ConnectorState :=
  let ft :=
    if (s.ft.accounts_get owner_id).isNone then s.ft.accounts_insert owner_id 0 else s.ft
  { s with ft := ft.internal_deposit owner_id amount }

/-- `mint_eth`: `internal_deposit_eth`. -/
def mint_eth (s : ConnectorState) (owner_id : EthAddress) (amount : Balance) : ConnectorState :=
  { s with ft := s.ft.internal_deposit_eth owner_id amount }

/-- `burn_near`: `internal_withdraw` (panics on insufficient balance,
embedded as the error). -/
def burn_near (s : ConnectorState) (owner_id : AccountId) (amount : Balance) :
    Except ConnectorError ConnectorState :=
  match s.ft.internal_withdraw owner_id amount with
  | Except.ok ft => Except.ok { s with ft := ft }
  | Except.error e => Except.error e

/-- `burn_eth`: `internal_withdraw_eth`. -/
def burn_eth (s : ConnectorState) (address : EthAddress) (amount : Balance) :
    Except ConnectorError ConnectorState :=
  match s.ft.internal_withdraw_eth address amount with
  | Except.ok ft => Except.ok { s with ft := ft }
  | Except.error e => Except.error e

/-! ## Deposit entry point -/

/-- `DepositedEvent` (`crate::deposit_event`): the event decoded from the
origin-chain log entry of the submitted proof.  `proof_key` is the value
of `proof.get_key()` for the proof the event came from — the deterministic
fingerprint the Replay Guard consumes (spec §3/§4.3; `deposit_event.rs`
is not under `src/`, so the event is taken as already-decoded input). -/
structure DepositedEvent where
  sender : EthAddress
  recipient : List Char
  amount : Balance
  fee : Balance
  eth_custodian_address : EthAddress
  proof_key : List Char
  deriving DecidableEq

/-- `DepositCallArgs` beyond the proof itself: the optional relayer address. -/
structure DepositCallArgs where
  relayer_eth_account : Option EthAddress
  deriving DecidableEq

/-- `FinishDepositCallArgs`: the continuation data `deposit` serializes for
`finish_deposit_near` (with `proof.get_key()` in place of the raw proof). -/
structure FinishDepositCallArgs where
  new_owner_id : AccountId
  amount : Balance
  fee : Balance
  proof_key : List Char
  deriving DecidableEq

/-- `FinishDepositEthCallArgs`: the continuation data for `finish_deposit_eth`. -/
structure FinishDepositEthCallArgs where
  new_owner_id : EthAddress
  amount : Balance
  fee : Balance
  relayer_eth_account : EthAddress
  proof_key : List Char
  deriving DecidableEq

/-- The continuation `deposit` schedules after the verification request:
which resumption entry point is chained onto the verifier promise, with
which serialized arguments. -/
inductive FinishCall
  | near (args : FinishDepositCallArgs)
  | eth (args : FinishDepositEthCallArgs)
  deriving DecidableEq

/-- `deposit`: check the event's custodian address against the configured
one (`ERR_WRONG_EVENT_ADDRESS`), run the source's fee assertion
`assert!(event.amount < event.fee, "ERR_NOT_ENOUGH_BALANCE_FOR_FEE")`
exactly as written, then issue the verification request to the prover and
chain the resumption continuation chosen by `parse_event_message` (an
origin-address recipient additionally requires `relayer_eth_account`,
else `ERR_RELAYER_NOT_SET`).  `deposit` takes `&self`: it performs no
ledger mutation and no storage write, so a successful call returns the
state unchanged together with the scheduled continuation, and an error
(panic) leaves nothing behind — in particular no verification request
survives an abort, since a panic rolls back the promises of the
invocation. -/
def deposit (deposit_data : DepositCallArgs) (event : DepositedEvent) (s : ConnectorState) :
    Except ConnectorError (ConnectorState × FinishCall) :=
  if event.eth_custodian_address ≠ s.contract.eth_custodian_address then
    Except.error ConnectorError.wrongEventAddress
  else if ¬ event.amount < event.fee then
    Except.error ConnectorError.notEnoughBalanceForFee
  else
    match parse_event_message event.recipient with
    | Except.error e => Except.error e
    | Except.ok (TokenMessageData.near account_id) =>
      Except.ok
        (s, FinishCall.near
          { new_owner_id := account_id
            amount := event.amount
            fee := event.fee
            proof_key := event.proof_key })
    | Except.ok (TokenMessageData.eth _ address) =>
      match deposit_data.relayer_eth_account with
      | none => Except.error ConnectorError.relayerNotSet
      | some relayer_eth_account =>
        Except.ok
          (s, FinishCall.eth
            { new_owner_id := address
              amount := event.amount
              fee := event.fee
              relayer_eth_account := relayer_eth_account
              proof_key := event.proof_key })

/-! ## Resumption entry points -/

/-- `PromiseResult` (`crate::types`): one prior asynchronous result. -/
inductive PromiseResult
  | successful (data : List Nat)
  | failed
  | notReady
  deriving DecidableEq

/-- Borsh `bool::try_from_slice`: exactly one byte, `0` or `1`; anything
else fails to parse. -/
def bool_try_from_slice : List Nat → Option Bool
  | [0] => some false
  | [1] => some true
  | _ => none

/-- `finish_deposit_near`: `assert_private_call` (the privileged-caller
predicate of spec §6, supplied by the host), `assert_eq!(promise_results_count(), 1)`,
read promise result 0 (`ERR_PROMISE_INDEX` unless successful), decode the
verifier's boolean, `assert!(verification_success, "ERR_VERIFY_PROOF")`,
`record_proof(proof.get_key())`, mint `amount - fee` to the recipient and
`fee` to the predecessor, then `save_contract` (persistence of the
returned state; every error path persists nothing). -/
def finish_deposit_near (private_call : Bool) (promise_results : List PromiseResult)
    (args : FinishDepositCallArgs) (predecessor_account_id : AccountId) (s : ConnectorState) :
    Except ConnectorError ConnectorState :=
  if private_call = false then
    Except.error ConnectorError.privateCallRequired
  else if promise_results.length ≠ 1 then
    Except.error ConnectorError.promiseCountMismatch
  else
    match promise_results.getD 0 PromiseResult.notReady with
    | PromiseResult.successful data0 =>
      match bool_try_from_slice data0 with
      | some true =>
        match record_proof s args.proof_key with
        | Except.error e => Except.error e
        | Except.ok s1 =>
          Except.ok
            (mint_near (mint_near s1 args.new_owner_id (args.amount - args.fee))
              predecessor_account_id args.fee)
      | some false => Except.error ConnectorError.verifyProof
      | none => Except.error ConnectorError.failedParse
    | _ => Except.error ConnectorError.promiseIndex

/-- `finish_deposit_eth`: as `finish_deposit_near`, but minting into the
origin-address namespace: `amount - fee` to the recipient address and
`fee` to the relayer address carried in the arguments. -/
def finish_deposit_eth (private_call : Bool) (promise_results : List PromiseResult)
    (args : FinishDepositEthCallArgs) (s : ConnectorState) :
    Except ConnectorError ConnectorState :=
  if private_call = false then
    Except.error ConnectorError.privateCallRequired
  else if promise_results.length ≠ 1 then
    Except.error ConnectorError.promiseCountMismatch
  else
    match promise_results.getD 0 PromiseResult.notReady with
    | PromiseResult.successful data0 =>
      match bool_try_from_slice data0 with
      | some true =>
        match record_proof s args.proof_key with
        | Except.error e => Except.error e
        | Except.ok s1 =>
          Except.ok
            (mint_eth (mint_eth s1 args.new_owner_id (args.amount - args.fee))
              args.relayer_eth_account args.fee)
      | some false => Except.error ConnectorError.verifyProof
      | none => Except.error ConnectorError.failedParse
    | _ => Except.error ConnectorError.promiseIndex

/-! ## Withdrawal (origin-address path) -/

/-- `WithdrawEthCallArgs`: sender (the signer), origin recipient address,
amount, and the detached EIP-712 signature bytes. -/
structure WithdrawEthCallArgs where
  sender : EthAddress
  eth_recipient : EthAddress
  amount : Balance
  eip712_signature : List Nat
  deriving DecidableEq

/-- `WithdrawResult`: the receipt returned to the caller for off-chain relay. -/
structure WithdrawResult where
  recipient_id : EthAddress
  amount : Balance
  eth_custodian_address : EthAddress
  deriving DecidableEq

/-- The shape of `verify_withdraw_eip712` (`crate::prover`, not in `src/`):
the Withdrawal Authorizer of spec §4.5, checking the detached signature
against the canonical message built from sender, recipient, custodian and
amount.  It is kept abstract — `withdraw_eth` below is parametrized over
it — because no claim depends on the cryptography, only on which checks
run and which balance is burned. -/
abbrev Eip712Verifier :=
  EthAddress → EthAddress → EthAddress → Balance → List Nat → Bool

/-- `withdraw_eth`: `assert!(verify_withdraw_eip712(sender, eth_recipient,
custodian, amount, signature), "ERR_WRONG_EIP712_MSG")`, build the
`WithdrawResult` carrying `eth_recipient`, then — exactly as the source
does — `burn_eth(args.eth_recipient, amount)` (the burn is taken from the
RECIPIENT address's origin-namespace balance, not from the signer's), and
`save_contract`.  An error (panic) persists nothing. -/
def withdraw_eth (verify_withdraw_eip712 : Eip712Verifier) (args : WithdrawEthCallArgs)
    (s : ConnectorState) : Except ConnectorError (ConnectorState × WithdrawResult) :=
  if verify_withdraw_eip712 args.sender args.eth_recipient s.contract.eth_custodian_address
      args.amount args.eip712_signature = false then
    Except.error ConnectorError.wrongEip712Msg
  else
    let res : WithdrawResult :=
      { recipient_id := args.eth_recipient
        amount := args.amount
        eth_custodian_address := s.contract.eth_custodian_address }
    match burn_eth s args.eth_recipient args.amount with
    | Except.error e => Except.error e
    | Except.ok s1 => Except.ok (s1, res)

/-! ## Invocation traces

One host invocation of a deposit-protocol entry point, together with the
ambient host data it reads (privileged-caller predicate, prior promise
results, predecessor).  An invocation that aborts leaves the persisted
state unchanged — the host rolls back every write of a panicking call —
which `apply_inv` reflects by keeping the pre-state on error. -/

/-- One deposit-protocol invocation (deposit submission or resumption). -/
inductive Invocation
  | depositCall (deposit_data : DepositCallArgs) (event : DepositedEvent)
  | finishNear (private_call : Bool) (promise_results : List PromiseResult)
      (args : FinishDepositCallArgs) (predecessor_account_id : AccountId)
  | finishEth (private_call : Bool) (promise_results : List PromiseResult)
      (args : FinishDepositEthCallArgs)
  deriving DecidableEq

/-- Run one invocation from a state: the committed post-state on success,
the abort condition otherwise. -/
def run_inv (s : ConnectorState) : Invocation → Except ConnectorError ConnectorState
  | Invocation.depositCall deposit_data event =>
    match deposit deposit_data event s with
    | Except.ok (s1, _) => Except.ok s1
    | Except.error e => Except.error e
  | Invocation.finishNear private_call promise_results args predecessor_account_id =>
    finish_deposit_near private_call promise_results args predecessor_account_id s
  | Invocation.finishEth private_call promise_results args =>
    finish_deposit_eth private_call promise_results args s

/-- The persisted state after an invocation: the post-state on success,
the unchanged pre-state when the invocation aborts (host rollback). -/
def apply_inv (s : ConnectorState) (i : Invocation) : ConnectorState :=
  match run_inv s i with
  | Except.ok s1 => s1
  | Except.error _ => s

/-- Whether an invocation commits (does not abort) from a state. -/
def inv_succeeds (s : ConnectorState) (i : Invocation) : Bool :=
  match run_inv s i with
  | Except.ok _ => true
  | Except.error _ => false

/-- The proof fingerprint an invocation would consume: the `proof_key` of a
resumption's arguments; a deposit submission consumes none (it never
mints). -/
def inv_proof_key : Invocation → Option (List Char)
  | Invocation.depositCall _ _ => none
  | Invocation.finishNear _ _ args _ => some args.proof_key
  | Invocation.finishEth _ _ args => some args.proof_key

/-- Number of successful mints funded by fingerprint `key` along a sequence
of invocations started from state `s`. -/
def count_key (key : List Char) : ConnectorState → List Invocation → Nat
  | _, [] => 0
  | s, i :: t =>
    (if inv_proof_key i = some key ∧ inv_succeeds s i = true then 1 else 0)
      + count_key key (apply_inv s i) t

/-! ## Concrete sample data

Closed instances used by the concrete theorems and by the witnesses of the
universally quantified ones. -/

/-- A sample configured custodian address (20 bytes of `7`). -/
def sampleCustodian : EthAddress := List.replicate 20 7

/-- The empty ledger. -/
def emptyFt : FungibleToken :=
  { accounts := [], accounts_eth := [], total_supply_near := 0, total_supply_eth := 0 }

/-- A freshly provisioned contract state: empty ledger, no used proofs. -/
def sampleState : ConnectorState :=
  { contract := { prover_account := str "prover", eth_custodian_address := sampleCustodian }
    ft := emptyFt
    used_events := [] }

/-- A deposit event for recipient `alice` with the given amount and fee,
custodian matching the sample configuration, fingerprint `p1`. -/
def sampleEvent (amount fee : Balance) : DepositedEvent :=
  { sender := List.replicate 20 1
    recipient := str "alice"
    amount := amount
    fee := fee
    eth_custodian_address := sampleCustodian
    proof_key := str "p1" }

/-- The finalizing caller of the sample resumptions. -/
def sampleRelayer : AccountId := str "relayer"

/-- Resumption arguments for a 1000-unit deposit with fee 10 to `alice`. -/
def sampleArgs1000 : FinishDepositCallArgs :=
  { new_owner_id := str "alice", amount := 1000, fee := 10, proof_key := str "p1" }

/-- Origin-address resumption arguments with fingerprint `p1`. -/
def sampleEthArgs : FinishDepositEthCallArgs :=
  { new_owner_id := List.replicate 20 3
    amount := 1000
    fee := 10
    relayer_eth_account := List.replicate 20 4
    proof_key := str "p1" }

/-- A fully valid resumption invocation for `sampleArgs1000`. -/
def sampleFinishInv : Invocation :=
  Invocation.finishNear true [PromiseResult.successful [1]] sampleArgs1000 sampleRelayer

/-- The committed state after running `sampleFinishInv` from `sampleState`. -/
def sampleStateAfter : ConnectorState :=
  match finish_deposit_near true [PromiseResult.successful [1]] sampleArgs1000 sampleRelayer
      sampleState with
  | Except.ok s1 => s1
  | Except.error _ => sampleState

/-- The committed state after the origin-address resumption from `sampleState`. -/
def sampleEthStateAfter : ConnectorState :=
  match finish_deposit_eth true [PromiseResult.successful [1]] sampleEthArgs sampleState with
  | Except.ok s1 => s1
  | Except.error _ => sampleState

/-- A state in which fingerprint `p1` has already been consumed. -/
def usedState : ConnectorState :=
  { sampleState with used_events := [used_event_key (str "p1")] }

/-- A deposit event whose log custodian (20 bytes of `8`) differs from the
configured `sampleCustodian`. -/
def badCustodianEvent : DepositedEvent :=
  { sampleEvent 5 10 with eth_custodian_address := List.replicate 20 8 }

/-- Origin address of the withdrawal signer (20 bytes of `1`). -/
def addrA : EthAddress := List.replicate 20 1

/-- Origin address named as withdrawal recipient (20 bytes of `2`). -/
def addrB : EthAddress := List.replicate 20 2

/-- A state where both `addrA` and `addrB` hold balance 5 in the
origin-address namespace. -/
def sampleWithdrawState : ConnectorState :=
  { contract := { prover_account := str "prover", eth_custodian_address := sampleCustodian }
    ft :=
      { accounts := []
        accounts_eth := [(addrA, 5), (addrB, 5)]
        total_supply_near := 0
        total_supply_eth := 10 }
    used_events := [] }

/-- Withdrawal of 5 units signed by `addrA` naming `addrB` as recipient. -/
def sampleWithdrawArgs : WithdrawEthCallArgs :=
  { sender := addrA, eth_recipient := addrB, amount := 5, eip712_signature := [1, 2, 3] }

/-- A verifier that accepts every signature (the valid-signature scenario). -/
def acceptAllVerifier : Eip712Verifier := fun _ _ _ _ _ => true

/-- A verifier that rejects every signature (the invalid-signature scenario). -/
def rejectAllVerifier : Eip712Verifier := fun _ _ _ _ _ => false

/-- A sample well-formed 20-byte address value. -/
def sampleAddress20 : Address := ⟨List.replicate 20 9, by simp⟩

/-- 40 hex characters: a 20-byte origin address in text form. -/
def sampleHexAddr : List Char := str "096de9c2b8a5b8c22cee3289b101f6960d68e51e"

/-- The bytes `sampleHexAddr` decodes to. -/
def sampleDecodedAddr : EthAddress := (hexBytes sampleHexAddr).getD []

/-! ## Helper lemmas -/

/-- A successful `record_proof` starts from an unused fingerprint and
returns exactly `save_used_event`. -/
theorem record_proof_ok (s s1 : ConnectorState) (key : List Char)
    (h : record_proof s key = Except.ok s1) :
    s1 = save_used_event s key ∧ check_used_event s key = false := by
  unfold record_proof at h
  split at h
  · exact Except.noConfusion h
  · rename_i hcond
    refine ⟨?_, by simpa using hcond⟩
    injection h with h
    exact h.symm

/-- A committed `finish_deposit_near` pushes exactly its fingerprint's
storage key onto the used-event set, which was previously free of it. -/
theorem finish_deposit_near_ok (p : Bool) (pr : List PromiseResult)
    (args : FinishDepositCallArgs) (pred : AccountId) (s s' : ConnectorState)
    (h : finish_deposit_near p pr args pred s = Except.ok s') :
    s'.used_events = used_event_key args.proof_key :: s.used_events
      ∧ check_used_event s args.proof_key = false := by
  unfold finish_deposit_near at h
  repeat' split at h
  all_goals try exact Except.noConfusion h
  rename_i s1 hrec
  obtain ⟨h1, hc⟩ := record_proof_ok s s1 args.proof_key hrec
  subst h1
  injection h with h
  subst h
  exact ⟨rfl, hc⟩

/-- A committed `finish_deposit_eth` pushes exactly its fingerprint's
storage key onto the used-event set, which was previously free of it. -/
theorem finish_deposit_eth_ok (p : Bool) (pr : List PromiseResult)
    (args : FinishDepositEthCallArgs) (s s' : ConnectorState)
    (h : finish_deposit_eth p pr args s = Except.ok s') :
    s'.used_events = used_event_key args.proof_key :: s.used_events
      ∧ check_used_event s args.proof_key = false := by
  unfold finish_deposit_eth at h
  repeat' split at h
  all_goals try exact Except.noConfusion h
  rename_i s1 hrec
  obtain ⟨h1, hc⟩ := record_proof_ok s s1 args.proof_key hrec
  subst h1
  injection h with h
  subst h
  exact ⟨rfl, hc⟩

/-- A successful `deposit` hands back the state it was given. -/
theorem deposit_ok_state (dd : DepositCallArgs) (event : DepositedEvent) (s : ConnectorState)
    (r : ConnectorState × FinishCall) (h : deposit dd event s = Except.ok r) : r.1 = s := by
  unfold deposit at h
  repeat' split at h
  all_goals try exact Except.noConfusion h
  all_goals (injection h with h; subst h; rfl)

/-- No invocation ever removes a used-event key. -/
theorem apply_inv_used_mono (s : ConnectorState) (i : Invocation) (k : List Char)
    (h : k ∈ s.used_events) : k ∈ (apply_inv s i).used_events := by
  cases i with
  | depositCall dd event =>
    unfold apply_inv
    simp only [run_inv]
    cases hd : deposit dd event s with
    | error e => simpa using h
    | ok r =>
      obtain ⟨s2, f⟩ := r
      simp only
      have h2 : s2 = s := deposit_ok_state dd event s (s2, f) hd
      subst h2
      exact h
  | finishNear p pr args pred =>
    unfold apply_inv
    simp only [run_inv]
    cases hr : finish_deposit_near p pr args pred s with
    | error e => exact h
    | ok s1 =>
      simp only
      rw [(finish_deposit_near_ok p pr args pred s s1 hr).1]
      exact List.mem_cons_of_mem _ h
  | finishEth p pr args =>
    unfold apply_inv
    simp only [run_inv]
    cases hr : finish_deposit_eth p pr args s with
    | error e => exact h
    | ok s1 =>
      simp only
      rw [(finish_deposit_eth_ok p pr args s s1 hr).1]
      exact List.mem_cons_of_mem _ h

/-- An invocation that commits a mint for fingerprint `key` starts from a
state in which `key` is not yet consumed. -/
theorem succeeds_not_used (s : ConnectorState) (i : Invocation) (key : List Char)
    (hk : inv_proof_key i = some key) (hs : inv_succeeds s i = true) :
    check_used_event s key = false := by
  cases i with
  | depositCall dd event => exact Option.noConfusion hk
  | finishNear p pr args pred =>
    injection hk with hk
    subst hk
    unfold inv_succeeds at hs
    simp only [run_inv] at hs
    cases hr : finish_deposit_near p pr args pred s with
    | error e => rw [hr] at hs; exact Bool.noConfusion hs
    | ok s1 => exact (finish_deposit_near_ok p pr args pred s s1 hr).2
  | finishEth p pr args =>
    injection hk with hk
    subst hk
    unfold inv_succeeds at hs
    simp only [run_inv] at hs
    cases hr : finish_deposit_eth p pr args s with
    | error e => rw [hr] at hs; exact Bool.noConfusion hs
    | ok s1 => exact (finish_deposit_eth_ok p pr args s s1 hr).2

/-- An invocation that commits a mint for fingerprint `key` leaves `key`
consumed. -/
theorem succeeds_mem_after (s : ConnectorState) (i : Invocation) (key : List Char)
    (hk : inv_proof_key i = some key) (hs : inv_succeeds s i = true) :
    used_event_key key ∈ (apply_inv s i).used_events := by
  cases i with
  | depositCall dd event => exact Option.noConfusion hk
  | finishNear p pr args pred =>
    injection hk with hk
    subst hk
    unfold apply_inv
    simp only [run_inv]
    cases hr : finish_deposit_near p pr args pred s with
    | error e =>
      unfold inv_succeeds at hs
      simp only [run_inv, hr] at hs
      exact Bool.noConfusion hs
    | ok s1 =>
      simp only
      rw [(finish_deposit_near_ok p pr args pred s s1 hr).1]
      exact List.mem_cons_self _ _
  | finishEth p pr args =>
    injection hk with hk
    subst hk
    unfold apply_inv
    simp only [run_inv]
    cases hr : finish_deposit_eth p pr args s with
    | error e =>
      unfold inv_succeeds at hs
      simp only [run_inv, hr] at hs
      exact Bool.noConfusion hs
    | ok s1 =>
      simp only
      rw [(finish_deposit_eth_ok p pr args s s1 hr).1]
      exact List.mem_cons_self _ _

/-- Once a fingerprint is consumed, no later invocation mints for it. -/
theorem count_key_zero (key : List Char) (t : List Invocation) :
    ∀ s : ConnectorState, used_event_key key ∈ s.used_events → count_key key s t = 0 := by
  induction t with
  | nil => intro s _; rfl
  | cons i t ih =>
    intro s h
    unfold count_key
    rw [if_neg, ih (apply_inv s i) (apply_inv_used_mono s i _ h)]
    rintro ⟨hk, hs⟩
    have hcf := succeeds_not_used s i key hk hs
    unfold check_used_event at hcf
    simp only [decide_eq_false_iff_not] at hcf
    exact hcf h

/-- Along any invocation sequence, a fingerprint funds at most one mint. -/
theorem count_key_le_one (key : List Char) (t : List Invocation) :
    ∀ s : ConnectorState, count_key key s t ≤ 1 := by
  induction t with
  | nil => intro s; exact Nat.zero_le 1
  | cons i t ih =>
    intro s
    unfold count_key
    by_cases hc : inv_proof_key i = some key ∧ inv_succeeds s i = true
    · rw [if_pos hc, count_key_zero key t (apply_inv s i) (succeeds_mem_after s i key hc.1 hc.2)]
    · rw [if_neg hc]
      simpa using ih (apply_inv s i)

/-- A resumption for an already-consumed fingerprint aborts with the
replay error even when every other input is valid (NEAR namespace). -/
theorem finish_near_replay (s : ConnectorState) (args : FinishDepositCallArgs)
    (pred : AccountId) (h : check_used_event s args.proof_key = true) :
    finish_deposit_near true [PromiseResult.successful [1]] args pred s =
      Except.error ConnectorError.proofExists := by
  simp [finish_deposit_near, record_proof, h, bool_try_from_slice]

/-- A resumption for an already-consumed fingerprint aborts with the
replay error even when every other input is valid (ETH namespace). -/
theorem finish_eth_replay (s : ConnectorState) (args : FinishDepositEthCallArgs)
    (h : check_used_event s args.proof_key = true) :
    finish_deposit_eth true [PromiseResult.successful [1]] args s =
      Except.error ConnectorError.proofExists := by
  simp [finish_deposit_eth, record_proof, h, bool_try_from_slice]

/-- `splitColon` always produces at least one segment. -/
theorem splitColon_ne_nil (l : List Char) : splitColon l ≠ [] := by
  cases l with
  | nil => simp [splitColon]
  | cons c rest =>
    unfold splitColon
    by_cases hc : c = ':'
    · simp [hc]
    · simp only [if_neg hc]
      cases splitColon rest <;> simp

/-- A message without `':'` is a single segment: itself. -/
theorem splitColon_no_colon (l : List Char) (h : ':' ∉ l) : splitColon l = [l] := by
  induction l with
  | nil => rfl
  | cons c rest ih =>
    have hc : c ≠ ':' := fun hh => h (hh ▸ List.mem_cons_self c rest)
    unfold splitColon
    rw [if_neg hc, ih (fun hm => h (List.mem_cons_of_mem c hm))]

/-- Splitting at the first `':'`: a colon-free left segment comes off whole. -/
theorem splitColon_append (a b : List Char) (h : ':' ∉ a) :
    splitColon (a ++ ':' :: b) = a :: splitColon b := by
  induction a with
  | nil => simp [splitColon]
  | cons c a ih =>
    have hc : c ≠ ':' := fun hh => h (hh ▸ List.mem_cons_self c a)
    simp only [List.cons_append]
    rw [show splitColon (c :: (a ++ ':' :: b)) =
        (if c = ':' then [] :: splitColon (a ++ ':' :: b)
        else
          match splitColon (a ++ ':' :: b) with
          | [] => [[c]]
          | h :: t => (c :: h) :: t) from rfl]
    rw [if_neg hc, ih (fun hm => h (List.mem_cons_of_mem c hm))]

/-- The number of segments is the number of `':'` delimiters plus one. -/
theorem splitColon_length (l : List Char) : (splitColon l).length = l.count ':' + 1 := by
  induction l with
  | nil => rfl
  | cons c rest ih =>
    unfold splitColon
    by_cases hc : c = ':'
    · subst hc
      simp [List.count_cons, ih]
    · rw [if_neg hc]
      cases hsp : splitColon rest with
      | nil => exact absurd hsp (splitColon_ne_nil rest)
      | cons hd tl =>
        rw [hsp] at ih
        simp only [List.length_cons] at ih ⊢
        simp [List.count_cons, hc]
        omega

/-- A successfully validated origin address has exactly 20 bytes. -/
theorem validate_eth_address_ok_length (b : List Char) (address : EthAddress)
    (h : validate_eth_address b = Except.ok address) : address.length = 20 := by
  unfold validate_eth_address at h
  repeat' split at h
  all_goals try exact Except.noConfusion h
  rename_i data hhex hlen
  injection h with h
  subst h
  exact hlen

/-! ## Claim theorems -/

/-- C1: the claim says a deposit with fee exceeding the amount fails with
`FeeExceedsAmount` and a deposit with fee ≤ amount passes the fee check.
The source's check is inverted: `assert!(event.amount < event.fee,
"ERR_NOT_ENOUGH_BALANCE_FOR_FEE")` aborts exactly when fee ≤ amount and
lets a deposit proceed only when the fee strictly exceeds the amount.
Concretely: an event with amount 1000 and fee 10 (custodian matching) is
rejected at the fee check, while an event with amount 5 and fee 10
proceeds to verification. -/
theorem claim1_fee_guard_inverted :
    deposit { relayer_eth_account := none } (sampleEvent 1000 10) sampleState
        = Except.error ConnectorError.notEnoughBalanceForFee
      ∧ deposit { relayer_eth_account := none } (sampleEvent 5 10) sampleState
        = Except.ok (sampleState,
            FinishCall.near
              { new_owner_id := str "alice", amount := 5, fee := 10, proof_key := str "p1" }) := by
  decide

/-- C2: a proof fingerprint funds at most one successful mint across any
sequence of deposit submissions and resumption attempts: (1) the count of
committed mints for a fingerprint along any invocation trace is at most
one; (2) a recorded fingerprint is never removed by any invocation; (3-4)
a resumption for an already-used fingerprint with otherwise fully valid
inputs aborts with the replay error (`ERR_PROOF_EXIST`) and, carrying no
post-state, performs no mint; (5-6) every committed finish-deposit had
recorded its fingerprint (record happens before mint) starting from a
state where it was unused. -/
theorem claim2_fingerprint_at_most_one_mint :
    (∀ (key : List Char) (s : ConnectorState) (trace : List Invocation),
      count_key key s trace ≤ 1)
  ∧ (∀ (key : List Char) (s : ConnectorState) (i : Invocation),
      used_event_key key ∈ s.used_events → used_event_key key ∈ (apply_inv s i).used_events)
  ∧ (∀ (s : ConnectorState) (args : FinishDepositCallArgs) (pred : AccountId),
      check_used_event s args.proof_key = true →
      finish_deposit_near true [PromiseResult.successful [1]] args pred s
        = Except.error ConnectorError.proofExists)
  ∧ (∀ (s : ConnectorState) (args : FinishDepositEthCallArgs),
      check_used_event s args.proof_key = true →
      finish_deposit_eth true [PromiseResult.successful [1]] args s
        = Except.error ConnectorError.proofExists)
  ∧ (∀ (p : Bool) (pr : List PromiseResult) (args : FinishDepositCallArgs)
        (pred : AccountId) (s s' : ConnectorState),
      finish_deposit_near p pr args pred s = Except.ok s' →
      used_event_key args.proof_key ∈ s'.used_events
        ∧ check_used_event s args.proof_key = false)
  ∧ (∀ (p : Bool) (pr : List PromiseResult) (args : FinishDepositEthCallArgs)
        (s s' : ConnectorState),
      finish_deposit_eth p pr args s = Except.ok s' →
      used_event_key args.proof_key ∈ s'.used_events
        ∧ check_used_event s args.proof_key = false) := by
  refine ⟨?_, ?_, ?_, ?_, ?_, ?_⟩
  · intro key s trace
    exact count_key_le_one key trace s
  · intro key s i h
    exact apply_inv_used_mono s i _ h
  · intro s args pred h
    exact finish_near_replay s args pred h
  · intro s args h
    exact finish_eth_replay s args h
  · intro p pr args pred s s' h
    refine ⟨?_, (finish_deposit_near_ok p pr args pred s s' h).2⟩
    rw [(finish_deposit_near_ok p pr args pred s s' h).1]
    exact List.mem_cons_self _ _
  · intro p pr args s s' h
    refine ⟨?_, (finish_deposit_eth_ok p pr args s s' h).2⟩
    rw [(finish_deposit_eth_ok p pr args s s' h).1]
    exact List.mem_cons_self _ _

/-- Witness for C2: each part of `claim2_fingerprint_at_most_one_mint`
evaluated at concrete data — a double submission of the same valid
resumption mints once; membership, replay abort and record-before-mint at
the concrete used/fresh states. -/
theorem claim2_fingerprint_at_most_one_mint_witness :
    count_key (str "p1") sampleState [sampleFinishInv, sampleFinishInv] ≤ 1
  ∧ used_event_key (str "p1") ∈ (apply_inv usedState sampleFinishInv).used_events
  ∧ finish_deposit_near true [PromiseResult.successful [1]] sampleArgs1000 sampleRelayer usedState
      = Except.error ConnectorError.proofExists
  ∧ finish_deposit_eth true [PromiseResult.successful [1]] sampleEthArgs usedState
      = Except.error ConnectorError.proofExists
  ∧ (used_event_key (str "p1") ∈ sampleStateAfter.used_events
      ∧ check_used_event sampleState (str "p1") = false)
  ∧ (used_event_key (str "p1") ∈ sampleEthStateAfter.used_events
      ∧ check_used_event sampleState (str "p1") = false) :=
  ⟨claim2_fingerprint_at_most_one_mint.1 (str "p1") sampleState
     [sampleFinishInv, sampleFinishInv],
   claim2_fingerprint_at_most_one_mint.2.1 (str "p1") usedState sampleFinishInv (by decide),
   claim2_fingerprint_at_most_one_mint.2.2.1 usedState sampleArgs1000 sampleRelayer (by decide),
   claim2_fingerprint_at_most_one_mint.2.2.2.1 usedState sampleEthArgs (by decide),
   claim2_fingerprint_at_most_one_mint.2.2.2.2.1 true [PromiseResult.successful [1]]
     sampleArgs1000 sampleRelayer sampleState sampleStateAfter (by decide),
   claim2_fingerprint_at_most_one_mint.2.2.2.2.2 true [PromiseResult.successful [1]]
     sampleEthArgs sampleState sampleEthStateAfter (by decide)⟩

/-- C3: the claim says a verified origin-address withdrawal burns from the
SIGNER's (sender's) origin-namespace balance.  The source instead calls
`burn_eth(args.eth_recipient, amount)`: with signer `addrA` and recipient
`addrB` both holding 5 and a valid signature, the post-state leaves the
signer's balance at 5 and zeroes the recipient's, while the receipt does
carry the recipient address; an invalid signature aborts with
`ERR_WRONG_EIP712_MSG` and no mutation. -/
theorem claim3_withdraw_eth_burns_recipient :
    addrA ≠ addrB
      ∧ (withdraw_eth acceptAllVerifier sampleWithdrawArgs sampleWithdrawState).map
          (fun r => ((alist_get r.1.ft.accounts_eth addrA).getD 0,
            (alist_get r.1.ft.accounts_eth addrB).getD 0, r.2.recipient_id))
        = Except.ok (5, 0, addrB)
      ∧ withdraw_eth rejectAllVerifier sampleWithdrawArgs sampleWithdrawState
        = Except.error ConnectorError.wrongEip712Msg := by
  decide

/-- C4: a deposit whose log custodian address differs from the configured
custodian aborts with `ERR_WRONG_EVENT_ADDRESS` before anything else: no
verification request is issued (the abort carries no continuation) and
the persisted state after the invocation is the unchanged pre-state. -/
theorem claim4_custodian_mismatch_rejects :
    ∀ (dd : DepositCallArgs) (event : DepositedEvent) (s : ConnectorState),
      event.eth_custodian_address ≠ s.contract.eth_custodian_address →
        deposit dd event s = Except.error ConnectorError.wrongEventAddress
          ∧ apply_inv s (Invocation.depositCall dd event) = s := by
  intro dd event s h
  have hd : deposit dd event s = Except.error ConnectorError.wrongEventAddress := by
    unfold deposit
    rw [if_pos h]
  refine ⟨hd, ?_⟩
  unfold apply_inv
  simp only [run_inv, hd]

/-- Witness for C4: the mismatching sample event is rejected and the
sample state is untouched. -/
theorem claim4_custodian_mismatch_rejects_witness :
    deposit { relayer_eth_account := none } badCustodianEvent sampleState
        = Except.error ConnectorError.wrongEventAddress
      ∧ apply_inv sampleState
          (Invocation.depositCall { relayer_eth_account := none } badCustodianEvent)
        = sampleState :=
  claim4_custodian_mismatch_rejects { relayer_eth_account := none } badCustodianEvent
    sampleState (by decide)

/-- C5: the deposit entry point performs no ledger mutation and no
persistence write: for every input, the persisted state after a deposit
invocation — whether it aborts or succeeds and suspends awaiting
verification — is exactly the state before it. -/
theorem claim5_deposit_no_mutation :
    ∀ (dd : DepositCallArgs) (event : DepositedEvent) (s : ConnectorState),
      apply_inv s (Invocation.depositCall dd event) = s := by
  intro dd event s
  unfold apply_inv
  simp only [run_inv]
  cases hd : deposit dd event s with
  | error e => rfl
  | ok r =>
    obtain ⟨s2, f⟩ := r
    simp only
    exact deposit_ok_state dd event s (s2, f) hd

/-- C6: resumption guards, for both `finish_deposit_near` and
`finish_deposit_eth`: (1-2) a non-self caller is rejected
(`assert_private_call`) with the persisted state unchanged; (3-4) a prior
asynchronous result count other than exactly one is fatal; (5-6) a
non-successful promise result aborts (`ERR_PROMISE_INDEX`); (7-8) a
successful result decoding to `false` aborts (`ERR_VERIFY_PROOF`).  Every
abort carries no post-state, so no mutation is persisted. -/
theorem claim6_resumption_guards :
    (∀ (pr : List PromiseResult) (args : FinishDepositCallArgs) (pred : AccountId)
        (s : ConnectorState),
      finish_deposit_near false pr args pred s = Except.error ConnectorError.privateCallRequired
        ∧ apply_inv s (Invocation.finishNear false pr args pred) = s)
  ∧ (∀ (pr : List PromiseResult) (args : FinishDepositEthCallArgs) (s : ConnectorState),
      finish_deposit_eth false pr args s = Except.error ConnectorError.privateCallRequired
        ∧ apply_inv s (Invocation.finishEth false pr args) = s)
  ∧ (∀ (pr : List PromiseResult) (args : FinishDepositCallArgs) (pred : AccountId)
        (s : ConnectorState), pr.length ≠ 1 →
      finish_deposit_near true pr args pred s = Except.error ConnectorError.promiseCountMismatch)
  ∧ (∀ (pr : List PromiseResult) (args : FinishDepositEthCallArgs) (s : ConnectorState),
      pr.length ≠ 1 →
      finish_deposit_eth true pr args s = Except.error ConnectorError.promiseCountMismatch)
  ∧ (∀ (res : PromiseResult) (args : FinishDepositCallArgs) (pred : AccountId)
        (s : ConnectorState), (∀ data, res ≠ PromiseResult.successful data) →
      finish_deposit_near true [res] args pred s = Except.error ConnectorError.promiseIndex)
  ∧ (∀ (res : PromiseResult) (args : FinishDepositEthCallArgs) (s : ConnectorState),
      (∀ data, res ≠ PromiseResult.successful data) →
      finish_deposit_eth true [res] args s = Except.error ConnectorError.promiseIndex)
  ∧ (∀ (data0 : List Nat) (args : FinishDepositCallArgs) (pred : AccountId)
        (s : ConnectorState), bool_try_from_slice data0 = some false →
      finish_deposit_near true [PromiseResult.successful data0] args pred s
        = Except.error ConnectorError.verifyProof)
  ∧ (∀ (data0 : List Nat) (args : FinishDepositEthCallArgs) (s : ConnectorState),
      bool_try_from_slice data0 = some false →
      finish_deposit_eth true [PromiseResult.successful data0] args s
        = Except.error ConnectorError.verifyProof) := by
  refine ⟨?_, ?_, ?_, ?_, ?_, ?_, ?_, ?_⟩
  · intro pr args pred s
    exact ⟨rfl, rfl⟩
  · intro pr args s
    exact ⟨rfl, rfl⟩
  · intro pr args pred s h
    unfold finish_deposit_near
    rw [if_neg (by simp), if_pos h]
  · intro pr args s h
    unfold finish_deposit_eth
    rw [if_neg (by simp), if_pos h]
  · intro res args pred s h
    cases res with
    | successful data => exact absurd rfl (h data)
    | failed => rfl
    | notReady => rfl
  · intro res args s h
    cases res with
    | successful data => exact absurd rfl (h data)
    | failed => rfl
    | notReady => rfl
  · intro data0 args pred s h
    simp [finish_deposit_near, h]
  · intro data0 args s h
    simp [finish_deposit_eth, h]

/-- Witness for C6: every guard evaluated at concrete inputs — non-self
caller, empty promise-result list, failed promise result, and a result
decoding to `false`. -/
theorem claim6_resumption_guards_witness :
    (finish_deposit_near false [] sampleArgs1000 sampleRelayer sampleState
        = Except.error ConnectorError.privateCallRequired
      ∧ apply_inv sampleState (Invocation.finishNear false [] sampleArgs1000 sampleRelayer)
        = sampleState)
  ∧ (finish_deposit_eth false [] sampleEthArgs sampleState
        = Except.error ConnectorError.privateCallRequired
      ∧ apply_inv sampleState (Invocation.finishEth false [] sampleEthArgs) = sampleState)
  ∧ finish_deposit_near true [] sampleArgs1000 sampleRelayer sampleState
      = Except.error ConnectorError.promiseCountMismatch
  ∧ finish_deposit_eth true [] sampleEthArgs sampleState
      = Except.error ConnectorError.promiseCountMismatch
  ∧ finish_deposit_near true [PromiseResult.failed] sampleArgs1000 sampleRelayer sampleState
      = Except.error ConnectorError.promiseIndex
  ∧ finish_deposit_eth true [PromiseResult.failed] sampleEthArgs sampleState
      = Except.error ConnectorError.promiseIndex
  ∧ finish_deposit_near true [PromiseResult.successful [0]] sampleArgs1000 sampleRelayer
      sampleState = Except.error ConnectorError.verifyProof
  ∧ finish_deposit_eth true [PromiseResult.successful [0]] sampleEthArgs sampleState
      = Except.error ConnectorError.verifyProof :=
  ⟨claim6_resumption_guards.1 [] sampleArgs1000 sampleRelayer sampleState,
   claim6_resumption_guards.2.1 [] sampleEthArgs sampleState,
   claim6_resumption_guards.2.2.1 [] sampleArgs1000 sampleRelayer sampleState (by decide),
   claim6_resumption_guards.2.2.2.1 [] sampleEthArgs sampleState (by decide),
   claim6_resumption_guards.2.2.2.2.1 PromiseResult.failed sampleArgs1000 sampleRelayer
     sampleState (fun data h => PromiseResult.noConfusion h),
   claim6_resumption_guards.2.2.2.2.2.1 PromiseResult.failed sampleEthArgs sampleState
     (fun data h => PromiseResult.noConfusion h),
   claim6_resumption_guards.2.2.2.2.2.2.1 [0] sampleArgs1000 sampleRelayer sampleState
     (by decide),
   claim6_resumption_guards.2.2.2.2.2.2.2 [0] sampleEthArgs sampleState (by decide)⟩

/-- C7: recipient-message resolution: a message with no `':'` resolves to
the host-account target carrying the whole message; a message with
exactly one `':'` whose right part validates as an origin address
resolves to the origin-address target (left part as contract tag, right
part as the decoded 20-byte address); a message with two or more `':'`
delimiters is rejected as malformed. -/
theorem claim7_recipient_resolution :
    (∀ m : List Char, ':' ∉ m →
      parse_event_message m = Except.ok (TokenMessageData.near m))
  ∧ (∀ (a b : List Char) (address : EthAddress), ':' ∉ a → ':' ∉ b →
      validate_eth_address b = Except.ok address →
      parse_event_message (a ++ ':' :: b) = Except.ok (TokenMessageData.eth a address)
        ∧ address.length = 20)
  ∧ (∀ m : List Char, 2 ≤ m.count ':' →
      parse_event_message m = Except.error ConnectorError.malformedMessage) := by
  refine ⟨?_, ?_, ?_⟩
  · intro m h
    unfold parse_event_message
    rw [splitColon_no_colon m h]
    rfl
  · intro a b address ha hb hv
    refine ⟨?_, validate_eth_address_ok_length b address hv⟩
    unfold parse_event_message
    rw [splitColon_append a b ha, splitColon_no_colon b hb]
    simp [hv]
  · intro m h
    unfold parse_event_message
    have hlen : ¬ (splitColon m).length < 3 := by
      rw [splitColon_length]
      omega
    simp only [if_neg hlen]

/-- Witness for C7: `alice` resolves to a host account, `somecontract`
followed by a 40-hex-character address resolves to the origin-address
target, and a two-delimiter message is rejected. -/
theorem claim7_recipient_resolution_witness :
    parse_event_message (str "alice") = Except.ok (TokenMessageData.near (str "alice"))
  ∧ (parse_event_message (str "somecontract" ++ ':' :: sampleHexAddr)
        = Except.ok (TokenMessageData.eth (str "somecontract") sampleDecodedAddr)
      ∧ sampleDecodedAddr.length = 20)
  ∧ parse_event_message (str "a:b:c") = Except.error ConnectorError.malformedMessage :=
  ⟨claim7_recipient_resolution.1 (str "alice") (by decide),
   claim7_recipient_resolution.2.1 (str "somecontract") sampleHexAddr sampleDecodedAddr
     (by decide) (by decide) (by decide),
   claim7_recipient_resolution.2.2 (str "a:b:c") (by decide)⟩

/-- C8: the address codec round-trips — decoding the 20-byte serialization
of any `Address` returns that address — and decoding any byte sequence
whose length is not 20 fails with the address-length error in both the
`try_from_slice` and the `TryFrom` paths, producing no address. -/
theorem claim8_address_roundtrip :
    (∀ a : Address, Address.try_from_slice (Address.serialize a) = Except.ok a)
  ∧ (∀ v : List Nat, v.length ≠ 20 →
      Address.try_from_slice v = Except.error ERR_WRONG_ADDRESS_LENGTH
        ∧ Address.try_from v = Except.error AddressLengthError.mk) := by
  constructor
  · intro a
    obtain ⟨l, hl⟩ := a
    simp [Address.try_from_slice, Address.deserialize, Address.serialize, hl]
  · intro v hv
    constructor
    · simp [Address.try_from_slice, Address.deserialize, hv]
    · simp [Address.try_from, Address.try_from_slice, Address.deserialize, hv]

/-- Witness for C8: the sample address round-trips and a 3-byte input is
rejected by both checked decode paths. -/
theorem claim8_address_roundtrip_witness :
    Address.try_from_slice (Address.serialize sampleAddress20) = Except.ok sampleAddress20
  ∧ (Address.try_from_slice [0, 0, 0] = Except.error ERR_WRONG_ADDRESS_LENGTH
      ∧ Address.try_from [0, 0, 0] = Except.error AddressLengthError.mk) :=
  ⟨claim8_address_roundtrip.1 sampleAddress20, claim8_address_roundtrip.2 [0, 0, 0] (by decide)⟩

/-- C9: the spec scenario says a deposit of 1000 units with fee 10 to host
identity `alice` proceeds through verification and then mints 990 to
`alice`, 10 to the finalizing caller, and 1000 of total supply.  The
finish-deposit arithmetic does exactly that, but the deposit entry point
itself rejects this very event at the inverted fee check
(`ERR_NOT_ENOUGH_BALANCE_FOR_FEE`), so the scenario can never pass
through `deposit` as the code stands. -/
theorem claim9_scenario_1000_10 :
    deposit { relayer_eth_account := none } (sampleEvent 1000 10) sampleState
        = Except.error ConnectorError.notEnoughBalanceForFee
      ∧ (finish_deposit_near true [PromiseResult.successful [1]] sampleArgs1000 sampleRelayer
            sampleState).map
          (fun s1 => ((alist_get s1.ft.accounts (str "alice")).getD 0,
            (alist_get s1.ft.accounts sampleRelayer).getD 0, s1.ft.ft_total_supply))
        = Except.ok (990, 10, 1000) := by
  decide

/-- C10: `Address::from_slice` forwards to `H160::from_slice` with no
length guard, so any slice whose length is not 20 panics (modelled as
`none`) instead of returning an error, unlike the checked decode paths
`try_from` and `try_from_slice`, which return the address-length error. -/
theorem claim10_from_slice_panic :
    ∀ v : List Nat, v.length ≠ 20 →
      Address.from_slice v = none
        ∧ Address.try_from v = Except.error AddressLengthError.mk
        ∧ Address.try_from_slice v = Except.error ERR_WRONG_ADDRESS_LENGTH := by
  intro v hv
  refine ⟨?_, ?_, ?_⟩
  · simp [Address.from_slice, H160.from_slice, hv]
  · simp [Address.try_from, Address.try_from_slice, Address.deserialize, hv]
  · simp [Address.try_from_slice, Address.deserialize, hv]

/-- Witness for C10: the 3-byte input panics in `from_slice` and errors in
the checked paths. -/
theorem claim10_from_slice_panic_witness :
    Address.from_slice [1, 2, 3] = none
      ∧ Address.try_from [1, 2, 3] = Except.error AddressLengthError.mk
      ∧ Address.try_from_slice [1, 2, 3] = Except.error ERR_WRONG_ADDRESS_LENGTH :=
  claim10_from_slice_panic [1, 2, 3] (by decide)

end AuroraConnector
